import Mathlib

/-
  Verification of the PythonTools editor extension (Sublime Text LSP client).

  Shallow embedding of the repository's pure logic:
  * RPC wire framing (src/internal/lsp_client.py: wrap_rpc, get_content_length,
    StandardIO.read), bytes modelled as natural numbers.
  * RequestManager and Client response routing (src/internal/lsp_client.py).
  * Document registry didOpen/didClose notification policy
    (src/internal/pyserver_handler.py, src/internal/pyserver.py,
    registry semantics from src/internal/workspace.py).
  * UnbufferedDocument cumulative-shift text splice (src/internal/document.py).
  * WorkspaceEdit.apply_changes (src/internal/pyserver.py,
    src/pythontools.py PyserverHandler._apply_edit).
  * DiagnosticManager._show_status (three historical iterations).
  * Environment scanning and activation (src/environment/virtual_environment.py).
  * Initialize lifecycle (src/internal/pyserver.py InitializeManager).
-/

namespace PythonTools

/-! ## Byte-level helpers

Bytes are modelled as natural numbers (the values of the Python `bytes`
elements).  ASCII text is converted through the characters' code points. -/

/-- Bytes of an ASCII string (each character's code point). -/
def strBytes (s : String) : List Nat :=
  s.data.map Char.toNat

/-- Little-endian decimal digits of `n` as ASCII bytes, with explicit fuel so
that the kernel can evaluate it.  Mirrors the digit production of Python's
`b"%d" % n` formatting. -/
def decLEAux : Nat → Nat → List Nat
  | _, 0 => []
  | 0, _ + 1 => []
  | fuel + 1, n + 1 => ((n + 1) % 10 + 48) :: decLEAux fuel ((n + 1) / 10)

/-- ASCII decimal representation of `n`, most significant digit first:
the bytes `b"%d" % n` produces. -/
def decRepr (n : Nat) : List Nat :=
  if n = 0 then [48] else (decLEAux n n).reverse

/-- Value of a little-endian ASCII digit list. -/
def valOfLE : List Nat → Nat
  | [] => 0
  | d :: rest => (d - 48) + 10 * valOfLE rest

/-- Parse a most-significant-first ASCII digit run, as `int()` does on the
regex group captured from the header. -/
def parseDecBE (ds : List Nat) : Nat :=
  valOfLE ds.reverse

theorem valOfLE_decLEAux (fuel n : Nat) (h : n ≤ fuel) :
    valOfLE (decLEAux fuel n) = n := by
  induction fuel generalizing n with
  | zero =>
    have hn : n = 0 := by omega
    subst hn
    simp [decLEAux, valOfLE]
  | succ f ih =>
    cases n with
    | zero => simp [decLEAux, valOfLE]
    | succ m =>
      have hdiv : (m + 1) / 10 ≤ f := by
        have h1 : (m + 1) / 10 < m + 1 := Nat.div_lt_self (Nat.succ_pos m) (by omega)
        omega
      simp only [decLEAux, valOfLE, ih _ hdiv]
      omega

theorem parseDecBE_decRepr (n : Nat) : parseDecBE (decRepr n) = n := by
  by_cases h : n = 0
  · subst h; rfl
  · simp only [decRepr, if_neg h, parseDecBE, List.reverse_reverse]
    exact valOfLE_decLEAux n n le_rfl

/-- Every byte emitted by `decLEAux` is an ASCII digit. -/
theorem decLEAux_digits (fuel n : Nat) :
    ∀ b ∈ decLEAux fuel n, 48 ≤ b ∧ b ≤ 57 := by
  induction fuel generalizing n with
  | zero => cases n <;> simp [decLEAux]
  | succ f ih =>
    cases n with
    | zero => simp [decLEAux]
    | succ m =>
      intro b hb
      simp only [decLEAux, List.mem_cons] at hb
      rcases hb with hb | hb
      · have : (m + 1) % 10 < 10 := Nat.mod_lt _ (by omega)
        omega
      · exact ih _ b hb

theorem decRepr_digits (n : Nat) : ∀ b ∈ decRepr n, 48 ≤ b ∧ b ≤ 57 := by
  by_cases h : n = 0
  · subst h; simp [decRepr]
  · simp only [decRepr, if_neg h]
    intro b hb
    exact decLEAux_digits n n b (List.mem_reverse.mp hb)

/-! ## RPC wire framing

`wrap_rpc` (src/internal/lsp_client.py lines 81-85) builds
`b"Content-Length: %d\r\n" ++ b"\r\n" ++ content`. -/

/-- The carriage-return / line-feed pair. -/
def crlf : List Nat := [13, 10]

/-- `wrap_rpc(content)`: frame a message body with its `Content-Length`
header (src/internal/lsp_client.py `wrap_rpc`). -/
def wrap_rpc (content : List Nat) : List Nat :=
  strBytes "Content-Length: " ++ decRepr content.length ++ crlf ++ crlf ++ content

/-- `BufferedReader.readline` on a byte stream: split after the first
line feed, keeping it; the whole rest if none occurs. -/
def readline : List Nat → List Nat × List Nat
  | [] => ([], [])
  | b :: rest =>
    if b = 10 then ([10], rest)
    else
      let p := readline rest
      (b :: p.1, p.2)

theorem readline_snd_length (s : List Nat) : (readline s).2.length ≤ s.length := by
  induction s with
  | nil => simp [readline]
  | cons b rest ih =>
    by_cases h : b = 10
    · simp [readline, h]
    · simp only [readline, if_neg h]
      exact Nat.le_succ_of_le ih

theorem readline_fst_ne_nil (b : Nat) (rest : List Nat) :
    (readline (b :: rest)).1 ≠ [] := by
  by_cases h : b = 10 <;> simp [readline, h]

theorem readline_snd_lt (s : List Nat) (h : s ≠ []) : (readline s).2.length < s.length := by
  cases s with
  | nil => exact absurd rfl h
  | cons b rest =>
    have h1 : (readline (b :: rest)).2.length ≤ rest.length := by
      by_cases hb : b = 10
      · simp [readline, hb]
      · simp only [readline, if_neg hb]
        exact readline_snd_length rest
    simp only [List.length_cons]
    omega

/-- The header-collection loop of `StandardIO.read`
(src/internal/lsp_client.py lines 220-229): read lines until the bare
`\r\n` separator (or end of stream), accumulating them (line breaks
kept, as `readline` keeps them); returns the accumulated header bytes
and the remaining stream. -/
def readHeader (s : List Nat) : List Nat × List Nat :=
  match s with
  | [] => ([], [])
  | b :: rest =>
    let p := readline (b :: rest)
    if p.1 = crlf then ([], p.2)
    else
      let q := readHeader p.2
      (p.1 ++ q.1, q.2)
  termination_by s.length
  decreasing_by
    exact readline_snd_lt _ (by simp)

theorem readHeader_cons (b : Nat) (rest : List Nat) :
    readHeader (b :: rest) =
      if (readline (b :: rest)).1 = crlf then ([], (readline (b :: rest)).2)
      else ((readline (b :: rest)).1 ++ (readHeader (readline (b :: rest)).2).1,
            (readHeader (readline (b :: rest)).2).2) := by
  rw [readHeader]

/-- One line of Python `bytes.splitlines`: split at `\r\n`, `\r` or `\n`
(line break not kept), returning the line and the rest of the input. -/
def breakLine : List Nat → List Nat × List Nat
  | [] => ([], [])
  | b :: rest =>
    if b = 13 then
      ([], if rest.head? = some 10 then rest.tail else rest)
    else if b = 10 then ([], rest)
    else
      let p := breakLine rest
      (b :: p.1, p.2)

theorem breakLine_snd_length (b : Nat) (rest : List Nat) :
    (breakLine (b :: rest)).2.length ≤ rest.length := by
  induction rest generalizing b with
  | nil =>
    by_cases h13 : b = 13 <;> by_cases h10 : b = 10 <;>
      simp [breakLine, h13, h10]
  | cons c t ih =>
    by_cases h13 : b = 13
    · subst h13
      simp only [breakLine, if_pos rfl]
      by_cases hc : c = 10
      · simp [hc]
      · simp [hc]
    · by_cases h10 : b = 10
      · simp [breakLine, h13, h10]
      · simp only [breakLine, if_neg h13, if_neg h10]
        exact Nat.le_succ_of_le (ih c)

theorem breakLine_snd_lt (s : List Nat) (h : s ≠ []) :
    (breakLine s).2.length < s.length := by
  cases s with
  | nil => exact absurd rfl h
  | cons b rest =>
    have := breakLine_snd_length b rest
    simp only [List.length_cons]
    omega

/-- Python `bytes.splitlines` on header bytes. -/
def splitLinesB (s : List Nat) : List (List Nat) :=
  match s with
  | [] => []
  | b :: rest =>
    let p := breakLine (b :: rest)
    p.1 :: splitLinesB p.2
  termination_by s.length
  decreasing_by
    exact breakLine_snd_lt _ (by simp)

theorem splitLinesB_cons (b : Nat) (rest : List Nat) :
    splitLinesB (b :: rest) =
      (breakLine (b :: rest)).1 :: splitLinesB (breakLine (b :: rest)).2 := by
  rw [splitLinesB]

theorem splitLinesB_nil : splitLinesB [] = [] := by
  rw [splitLinesB]

/-- The bytes of the literal header key `b"Content-Length: "`. -/
def clPat : List Nat := strBytes "Content-Length: "

/-- Is the byte an ASCII decimal digit (the `\d` character class)? -/
def isDigitB (b : Nat) : Bool :=
  decide (48 ≤ b) && decide (b ≤ 57)

/-- `re.match(rb"Content-Length: (\d+)", line)` (anchored at the start of
the line) followed by `int(...)` on the digit group: the per-line body of
`get_content_length` (src/internal/lsp_client.py lines 88-94). -/
def matchContentLength (line : List Nat) : Option Nat :=
  if line.take 16 = clPat then
    if ((line.drop 16).takeWhile isDigitB).isEmpty then none
    else some (parseDecBE ((line.drop 16).takeWhile isDigitB))
  else none

/-- `get_content_length(header)`: scan the header's lines for the first
`Content-Length` match; `none` models the raised `HeaderError`
(src/internal/lsp_client.py `get_content_length`). -/
def get_content_length (header : List Nat) : Option Nat :=
  (splitLinesB header).findSome? matchContentLength

/-- `StandardIO.read()` (src/internal/lsp_client.py lines 217-250): read
header lines until the blank separator, extract `Content-Length`, then
read exactly that many body bytes.  `none` models the raised `EOFError`
(no header bytes, or the stream closing before the body completes) and
the propagated `HeaderError`. -/
def stdioRead (s : List Nat) : Option (List Nat) :=
  let p := readHeader s
  if p.1 = [] then none
  else
    match get_content_length p.1 with
    | none => none
    | some n => if n ≤ p.2.length then some (p.2.take n) else none

/-! ### Frame round-trip lemmas -/

theorem readline_append (xs rest : List Nat) (h : 10 ∉ xs) :
    readline (xs ++ 10 :: rest) = (xs ++ [10], rest) := by
  induction xs with
  | nil => simp [readline]
  | cons b t ih =>
    have hb : b ≠ 10 := fun hb => h (hb ▸ List.mem_cons_self b t)
    have ht : 10 ∉ t := fun hm => h (List.mem_cons_of_mem b hm)
    simp only [List.cons_append, readline, if_neg hb, List.append_eq, ih ht]

theorem breakLine_append (xs rest : List Nat) (h : ∀ b ∈ xs, b ≠ 13 ∧ b ≠ 10) :
    breakLine (xs ++ 13 :: 10 :: rest) = (xs, rest) := by
  induction xs with
  | nil => simp [breakLine]
  | cons b t ih =>
    have hb := h b (List.mem_cons_self b t)
    have ht : ∀ c ∈ t, c ≠ 13 ∧ c ≠ 10 := fun c hc => h c (List.mem_cons_of_mem b hc)
    simp only [List.cons_append, breakLine, if_neg hb.1, if_neg hb.2, List.append_eq, ih ht]

/-- No byte of the header key is a carriage return or line feed. -/
theorem clPat_no_break : ∀ b ∈ clPat, b ≠ 13 ∧ b ≠ 10 := by decide

theorem clPat_length : clPat.length = 16 := by decide

theorem decRepr_ne_nil (n : Nat) : decRepr n ≠ [] := by
  by_cases h : n = 0
  · subst h; simp [decRepr]
  · simp only [decRepr, if_neg h]
    intro hc
    rw [List.reverse_eq_nil_iff] at hc
    cases n with
    | zero => exact h rfl
    | succ m => simp [decLEAux] at hc

theorem decRepr_no_break (n : Nat) : ∀ b ∈ decRepr n, b ≠ 13 ∧ b ≠ 10 := by
  intro b hb
  have := decRepr_digits n b hb
  omega

/-- The header line of a frame produced by `wrap_rpc`, line break included. -/
def frameHeaderLine (n : Nat) : List Nat :=
  clPat ++ decRepr n ++ crlf

theorem readHeader_wrap (content : List Nat) :
    readHeader (wrap_rpc content) = (frameHeaderLine content.length, content) := by
  have hline : 10 ∉ clPat ++ decRepr content.length ++ [13] := by
    intro hm
    rcases List.mem_append.mp hm with hm | hm
    · rcases List.mem_append.mp hm with hm | hm
      · exact (clPat_no_break 10 hm).2 rfl
      · exact (decRepr_no_break _ 10 hm).2 rfl
    · simp at hm
  have hassoc : wrap_rpc content =
      (clPat ++ decRepr content.length ++ [13]) ++ 10 :: (13 :: 10 :: content) := by
    simp [wrap_rpc, crlf, clPat]
  have hr1 : readline (wrap_rpc content) = (frameHeaderLine content.length, 13 :: 10 :: content) := by
    rw [hassoc, readline_append _ _ hline]
    simp [frameHeaderLine, crlf]
  have hr2 : readline (13 :: 10 :: content) = (crlf, content) := by
    simp [readline, crlf]
  have hne1 : frameHeaderLine content.length ≠ crlf := by
    intro hc
    have := congrArg List.length hc
    simp only [frameHeaderLine, crlf, List.length_append, clPat_length, List.length_cons,
      List.length_nil] at this
    omega
  have hcons : ∃ b rest, wrap_rpc content = b :: rest := by
    rw [hassoc]
    exact ⟨67, _, rfl⟩
  obtain ⟨b, rest, hw⟩ := hcons
  rw [hw] at hr1 ⊢
  rw [readHeader_cons, hr1]
  simp only [if_neg hne1]
  rw [readHeader_cons]
  rw [hr2]
  simp

/-- `splitLinesB` of the single header line produced by `wrap_rpc`. -/
theorem splitLinesB_frameHeader (n : Nat) :
    splitLinesB (frameHeaderLine n) = [clPat ++ decRepr n] := by
  have hnb : ∀ b ∈ clPat ++ decRepr n, b ≠ 13 ∧ b ≠ 10 := by
    intro b hb
    rcases List.mem_append.mp hb with hb | hb
    · exact clPat_no_break b hb
    · exact decRepr_no_break n b hb
  have hb1 : breakLine (clPat ++ decRepr n ++ crlf) = (clPat ++ decRepr n, []) := by
    have := breakLine_append (clPat ++ decRepr n) [] hnb
    simpa [crlf] using this
  have hcons : ∃ b rest, frameHeaderLine n = b :: rest := by
    simp only [frameHeaderLine]
    exact ⟨67, _, by rfl⟩
  obtain ⟨b, rest, hw⟩ := hcons
  have hw' : frameHeaderLine n = clPat ++ decRepr n ++ crlf := rfl
  rw [hw' ] at hw
  rw [hw', hw, splitLinesB_cons, ← hw, hb1]
  simp [splitLinesB_nil]

theorem matchContentLength_frame (n : Nat) :
    matchContentLength (clPat ++ decRepr n) = some n := by
  have htake : (clPat ++ decRepr n).take 16 = clPat := List.take_left' clPat_length
  have hdrop : (clPat ++ decRepr n).drop 16 = decRepr n := List.drop_left' clPat_length
  have hdig : (decRepr n).takeWhile isDigitB = decRepr n := by
    apply List.takeWhile_eq_self_iff.mpr
    intro b hb
    have := decRepr_digits n b hb
    simp only [isDigitB, Bool.and_eq_true, decide_eq_true_eq]
    omega
  rw [matchContentLength, htake, if_pos rfl, hdrop, hdig,
    if_neg (by simp [decRepr_ne_nil n]), parseDecBE_decRepr]

theorem get_content_length_frame (n : Nat) :
    get_content_length (frameHeaderLine n) = some n := by
  rw [get_content_length, splitLinesB_frameHeader]
  simp [List.findSome?, matchContentLength_frame]

theorem frameHeaderLine_ne_nil (n : Nat) : frameHeaderLine n ≠ [] := by
  simp [frameHeaderLine, clPat, strBytes]

/-- The body-length the frame's header declares, as recovered by the
reader's own header parsing. -/
def frameContentLength (s : List Nat) : Option Nat :=
  get_content_length (readHeader s).1

theorem stdioRead_wrap (content : List Nat) : stdioRead (wrap_rpc content) = some content := by
  simp only [stdioRead, readHeader_wrap, if_neg (frameHeaderLine_ne_nil content.length),
    get_content_length_frame]
  simp

/-- Claim C5: for every JSON-serializable message object, parsing the framed
bytes produced by the frame writer returns the same message, and the frame
writer always embeds a `Content-Length` header whose value equals the exact
UTF-8 byte length of the JSON body.  The JSON codec (`json.dumps` after
`RPCMessage.dumps` has set the message's `jsonrpc` field in place, and
`json.loads`) is Python's standard library, external to the repository; it is
modelled as an arbitrary encoder/decoder pair satisfying its documented
round-trip contract, while `wrap_rpc`, `get_content_length` and
`StandardIO.read` are embedded byte-for-byte from src/internal/lsp_client.py. -/
theorem C5_frame_roundtrip (Msg : Type) (enc : Msg → List Nat) (dec : List Nat → Option Msg)
    (hinv : ∀ m, dec (enc m) = some m) (m : Msg) :
    (stdioRead (wrap_rpc (enc m))).bind dec = some m ∧
    frameContentLength (wrap_rpc (enc m)) = some (enc m).length := by
  constructor
  · rw [stdioRead_wrap]
    simpa using hinv m
  · rw [frameContentLength, readHeader_wrap]
    exact get_content_length_frame (enc m).length

/-- Witness for C5 at a concrete codec (decimal-printed naturals) and the
concrete message `5`. -/
theorem C5_frame_roundtrip_witness :
    (stdioRead (wrap_rpc (decRepr 5))).bind (fun bs => some (parseDecBE bs)) = some 5 ∧
    frameContentLength (wrap_rpc (decRepr 5)) = some (decRepr 5).length :=
  C5_frame_roundtrip Nat decRepr (fun bs => some (parseDecBE bs))
    (fun m => congrArg some (parseDecBE_decRepr m)) 5

/-! ## RequestManager and Client response routing

Embeds `RequestManager` (src/internal/lsp_client.py lines 257-318) and the
request/response paths of `Client` (`send_request`, `_handle_response`,
lines 431-449).  `methods_map` is an insertion-ordered association list,
matching Python dict iteration order, and `canceled_requests` a duplicate-free
list standing for the Python set. -/

/-- State of `RequestManager`. -/
structure RequestManager where
  methods_map : List (Nat × String)
  canceled_requests : List Nat
  request_count : Nat
  deriving Repr, DecidableEq

/-- A freshly constructed `RequestManager`: empty maps, counter `0`. -/
def freshRM : RequestManager := ⟨[], [], 0⟩

/-- Python dict assignment `d[k] = v`: overwrite in place if the key exists,
else append (insertion order preserved). -/
def mapStore (m : List (Nat × String)) (k : Nat) (v : String) : List (Nat × String) :=
  if m.any (fun p => p.1 = k) then m.map (fun p => if p.1 = k then (k, v) else p)
  else m ++ [(k, v)]

/-- `RequestManager.add`: increment the counter, record the method under the
new count, return the new count as the request id. -/
def rmAdd (rm : RequestManager) (method : String) : RequestManager × Nat :=
  ({ rm with
      request_count := rm.request_count + 1,
      methods_map := mapStore rm.methods_map (rm.request_count + 1) method },
    rm.request_count + 1)

/-- Outcome of `RequestManager.pop`: the `Canceled` exception, the found
method, or the `KeyError` exception. -/
inductive PopResult where
  | canceledExc
  | found (method : String)
  | keyError
  deriving Repr, DecidableEq

/-- `RequestManager.pop`: a cancelled id raises `Canceled` (and is removed
from the cancelled set); otherwise the id's method is popped from the map,
raising `KeyError` when absent. -/
def rmPop (rm : RequestManager) (id : Nat) : RequestManager × PopResult :=
  if id ∈ rm.canceled_requests then
    ({ rm with canceled_requests := rm.canceled_requests.filter (fun x => x ≠ id) },
      .canceledExc)
  else
    match rm.methods_map.find? (fun p => p.1 = id) with
    | some p =>
      ({ rm with methods_map := rm.methods_map.filter (fun q => decide (q.1 ≠ id)) },
        .found p.2)
    | none => (rm, .keyError)

/-- `RequestManager._get_previous_request`: first id mapped to the method,
in dict insertion order. -/
def rmPrev (rm : RequestManager) (method : String) : Option Nat :=
  (rm.methods_map.find? (fun p => p.2 = method)).map (fun p => p.1)

/-- `RequestManager.cancel`: move the previous same-method id (if any) from
the pending map into the cancelled set and return it. -/
def rmCancel (rm : RequestManager) (method : String) : RequestManager × Option Nat :=
  match rmPrev rm method with
  | none => (rm, none)
  | some id =>
    ({ rm with
        methods_map := rm.methods_map.filter (fun q => decide (q.1 ≠ id)),
        canceled_requests :=
          if id ∈ rm.canceled_requests then rm.canceled_requests
          else rm.canceled_requests ++ [id] },
      some id)

/-- A message transmitted by `Client`, as far as the cancellation claims
need it: a `Request` with its allocated id, or a notification (for
`$/cancelRequest` the referenced id is carried in the params). -/
inductive SentMsg where
  | request (id : Nat) (method : String) (params : String)
  | notif (method : String) (idParam : Option Nat)
  deriving Repr, DecidableEq

/-- Is the message a `$/cancelRequest` notification? -/
def isCancelNote : SentMsg → Bool
  | .notif m _ => m = "$/cancelRequest"
  | _ => false

/-- `Client.send_request` (src/internal/lsp_client.py lines 443-449): cancel
any previous same-method request (emitting `$/cancelRequest` when the walrus
test finds a truthy id), then allocate a fresh id and transmit the request.
Returns the new manager state and the transmitted messages in order. -/
def send_request (rm : RequestManager) (method params : String) :
    RequestManager × List SentMsg :=
  ((rmAdd (rmCancel rm method).1 method).1,
    (match (rmCancel rm method).2 with
     | some pid => if pid ≠ 0 then [SentMsg.notif "$/cancelRequest" (some pid)] else []
     | none => []) ++
      [SentMsg.request (rmAdd (rmCancel rm method).1 method).2 method params])

/-- What `Client._handle_response` does with an incoming response id:
dispatch to the handler registered for the popped method, silently discard
(cancelled id), or propagate `KeyError` without invoking a handler. -/
inductive RouteResult where
  | dispatched (method : String)
  | discarded
  | keyError
  deriving Repr, DecidableEq

/-- `Client._handle_response` (src/internal/lsp_client.py lines 431-441). -/
def handle_response (rm : RequestManager) (id : Nat) : RequestManager × RouteResult :=
  ((rmPop rm id).1,
    match (rmPop rm id).2 with
    | .canceledExc => .discarded
    | .found m => .dispatched m
    | .keyError => .keyError)

/-- Well-formedness maintained by every real run of the manager: pending ids
and cancelled ids never exceed the counter, pending ids are at least 1. -/
def rmWF (rm : RequestManager) : Prop :=
  (∀ p ∈ rm.methods_map, 1 ≤ p.1 ∧ p.1 ≤ rm.request_count) ∧
  (∀ id ∈ rm.canceled_requests, id ≤ rm.request_count)

/-- Claim C1: issuing `sendRequest(M, paramsA)` and then, before any
response, `sendRequest(M, paramsB)` sends exactly one `$/cancelRequest`
notification, referencing the first request's id; a later response for the
first id is discarded without invoking any handler, while a response for the
second id is dispatched to the handler registered for `M`. -/
theorem C1_single_flight_cancellation (rm : RequestManager) (M pA pB : String)
    (hwf : rmWF rm) (hM : ∀ p ∈ rm.methods_map, p.2 ≠ M) :
    ((send_request rm M pA).2 ++ (send_request (send_request rm M pA).1 M pB).2).countP
        isCancelNote = 1 ∧
    SentMsg.notif "$/cancelRequest" (some (rm.request_count + 1)) ∈
      (send_request (send_request rm M pA).1 M pB).2 ∧
    SentMsg.request (rm.request_count + 1) M pA ∈ (send_request rm M pA).2 ∧
    SentMsg.request (rm.request_count + 2) M pB ∈
      (send_request (send_request rm M pA).1 M pB).2 ∧
    (handle_response (send_request (send_request rm M pA).1 M pB).1
        (rm.request_count + 1)).2 = .discarded ∧
    (handle_response (send_request (send_request rm M pA).1 M pB).1
        (rm.request_count + 2)).2 = .dispatched M := by
  obtain ⟨hkeys, hcanc⟩ := hwf
  -- first call: no previous same-method request, so no cancel notification
  have hprev1 : rmPrev rm M = none := by
    rw [rmPrev, List.find?_eq_none.mpr (fun p hp => by simpa using hM p hp)]
    rfl
  have hcancel1 : rmCancel rm M = (rm, none) := by
    unfold rmCancel
    rw [hprev1]
  have hstore1 : mapStore rm.methods_map (rm.request_count + 1) M =
      rm.methods_map ++ [(rm.request_count + 1, M)] := by
    have hnotany : ¬(rm.methods_map.any (fun p => p.1 = rm.request_count + 1) = true) := by
      simp only [List.any_eq_true, decide_eq_true_eq]
      rintro ⟨x, hx, hd⟩
      have := (hkeys x hx).2
      omega
    rw [mapStore, if_neg hnotany]
  have hr1 : send_request rm M pA =
      (⟨rm.methods_map ++ [(rm.request_count + 1, M)],
        rm.canceled_requests, rm.request_count + 1⟩,
       [SentMsg.request (rm.request_count + 1) M pA]) := by
    unfold send_request
    rw [hcancel1]
    simp only [rmAdd, hstore1]
    rfl
  -- second call: the pending entry for M is found and cancelled
  have hprev2 : rmPrev (⟨rm.methods_map ++ [(rm.request_count + 1, M)],
      rm.canceled_requests, rm.request_count + 1⟩ : RequestManager) M =
      some (rm.request_count + 1) := by
    rw [rmPrev]
    simp only
    rw [List.find?_append, List.find?_eq_none.mpr (fun p hp => by simpa using hM p hp)]
    simp
  have hfilter2 : (rm.methods_map ++ [(rm.request_count + 1, M)]).filter
      (fun q => decide (q.1 ≠ rm.request_count + 1)) = rm.methods_map := by
    rw [List.filter_append]
    have h1 : rm.methods_map.filter (fun q => decide (q.1 ≠ rm.request_count + 1)) =
        rm.methods_map := by
      apply List.filter_eq_self.mpr
      intro p hp
      have := (hkeys p hp).2
      simp only [decide_eq_true_eq]
      omega
    have h2 : ([(rm.request_count + 1, M)] : List (Nat × String)).filter
        (fun q => decide (q.1 ≠ rm.request_count + 1)) = [] := by
      simp
    rw [h1, h2, List.append_nil]
  have hnc1 : (rm.request_count + 1) ∉ rm.canceled_requests := by
    intro hmem
    have := hcanc _ hmem
    omega
  have hcancel2 : rmCancel (⟨rm.methods_map ++ [(rm.request_count + 1, M)],
      rm.canceled_requests, rm.request_count + 1⟩ : RequestManager) M =
      (⟨rm.methods_map, rm.canceled_requests ++ [rm.request_count + 1],
        rm.request_count + 1⟩, some (rm.request_count + 1)) := by
    unfold rmCancel
    rw [hprev2]
    simp only [hfilter2, if_neg hnc1]
  have hstore2 : mapStore rm.methods_map (rm.request_count + 1 + 1) M =
      rm.methods_map ++ [(rm.request_count + 1 + 1, M)] := by
    have hnotany : ¬(rm.methods_map.any (fun p => p.1 = rm.request_count + 1 + 1) = true) := by
      simp only [List.any_eq_true, decide_eq_true_eq]
      rintro ⟨x, hx, hd⟩
      have := (hkeys x hx).2
      omega
    rw [mapStore, if_neg hnotany]
  have hr2 : send_request (send_request rm M pA).1 M pB =
      (⟨rm.methods_map ++ [(rm.request_count + 2, M)],
        rm.canceled_requests ++ [rm.request_count + 1], rm.request_count + 2⟩,
       [SentMsg.notif "$/cancelRequest" (some (rm.request_count + 1)),
        SentMsg.request (rm.request_count + 2) M pB]) := by
    rw [hr1]
    unfold send_request
    rw [hcancel2]
    simp only [rmAdd, hstore2]
    simp
  have hnc2 : (rm.request_count + 2) ∉ rm.canceled_requests ++ [rm.request_count + 1] := by
    simp only [List.mem_append, List.mem_singleton]
    rintro (hmem | hmem)
    · have := hcanc _ hmem; omega
    · omega
  have hfind3 : (rm.methods_map ++ [(rm.request_count + 2, M)]).find?
      (fun p => p.1 = rm.request_count + 2) = some (rm.request_count + 2, M) := by
    rw [List.find?_append]
    have hnone : rm.methods_map.find? (fun p => p.1 = rm.request_count + 2) = none := by
      apply List.find?_eq_none.mpr
      intro p hp
      have := (hkeys p hp).2
      simp only [decide_eq_true_eq]
      omega
    rw [hnone]
    simp
  refine ⟨?_, ?_, ?_, ?_, ?_, ?_⟩
  · rw [hr2, hr1]
    simp [isCancelNote]
  · rw [hr2]
    simp
  · rw [hr1]
    simp
  · rw [hr2]
    simp
  · rw [hr2]
    unfold handle_response rmPop
    rw [if_pos (by simp)]
  · rw [hr2]
    unfold handle_response rmPop
    rw [if_neg hnc2]
    simp only [hfind3]

/-- Witness for C1: a fresh manager, method `textDocument/hover`. -/
theorem C1_single_flight_cancellation_witness :
    ((send_request freshRM "textDocument/hover" "A").2 ++
      (send_request (send_request freshRM "textDocument/hover" "A").1
        "textDocument/hover" "B").2).countP isCancelNote = 1 ∧
    SentMsg.notif "$/cancelRequest" (some 1) ∈
      (send_request (send_request freshRM "textDocument/hover" "A").1
        "textDocument/hover" "B").2 ∧
    SentMsg.request 1 "textDocument/hover" "A" ∈
      (send_request freshRM "textDocument/hover" "A").2 ∧
    SentMsg.request 2 "textDocument/hover" "B" ∈
      (send_request (send_request freshRM "textDocument/hover" "A").1
        "textDocument/hover" "B").2 ∧
    (handle_response (send_request (send_request freshRM "textDocument/hover" "A").1
        "textDocument/hover" "B").1 1).2 = .discarded ∧
    (handle_response (send_request (send_request freshRM "textDocument/hover" "A").1
        "textDocument/hover" "B").1 2).2 = .dispatched "textDocument/hover" :=
  C1_single_flight_cancellation freshRM "textDocument/hover" "A" "B"
    (by constructor <;> simp [freshRM]) (by simp [freshRM])

/-! ### Lifetime invariants of the RequestManager (claim C6) -/

/-- The three operations that touch the pending map over a manager's
lifetime: `add` (a request is sent), `pop` (a response arrives), `cancel`
(a same-method request supersedes the pending one). -/
inductive RMOp where
  | add (method : String)
  | pop (id : Nat)
  | cancel (method : String)
  deriving Repr, DecidableEq

/-- State transition of one operation. -/
def rmStep (rm : RequestManager) : RMOp → RequestManager
  | .add m => (rmAdd rm m).1
  | .pop id => (rmPop rm id).1
  | .cancel m => (rmCancel rm m).1

/-- Number of `add` operations in a trace. -/
def countAdds : List RMOp → Nat
  | [] => 0
  | op :: ops => (match op with | .add _ => 1 | _ => 0) + countAdds ops

/-- The ids returned by the `add` calls of a trace, in order. -/
def addIds (rm : RequestManager) : List RMOp → List Nat
  | [] => []
  | op :: ops =>
    match op with
    | .add m => (rmAdd rm m).2 :: addIds (rmStep rm op) ops
    | _ => addIds (rmStep rm op) ops

/-- The ids currently pending in the map. -/
def rmKeys (rm : RequestManager) : List Nat :=
  rm.methods_map.map (fun p => p.1)

/-- How many steps of the trace remove `id` from the pending map. -/
def leaves (id : Nat) (rm : RequestManager) : List RMOp → Nat
  | [] => 0
  | op :: ops =>
    (if id ∈ rmKeys rm ∧ id ∉ rmKeys (rmStep rm op) then 1 else 0) +
      leaves id (rmStep rm op) ops

theorem rmStep_request_count (rm : RequestManager) (op : RMOp) :
    (rmStep rm op).request_count =
      rm.request_count + (match op with | .add _ => 1 | _ => 0) := by
  cases op with
  | add m => rfl
  | pop id =>
    simp only [rmStep, rmPop]
    split
    · rfl
    · split <;> rfl
  | cancel m =>
    simp only [rmStep, rmCancel]
    split <;> rfl

theorem addIds_eq_range' (ops : List RMOp) (rm : RequestManager) :
    addIds rm ops = List.range' (rm.request_count + 1) (countAdds ops) := by
  induction ops generalizing rm with
  | nil => rfl
  | cons op ops ih =>
    cases op with
    | add m =>
      show (rmAdd rm m).2 :: addIds (rmStep rm (.add m)) ops = _
      rw [ih]
      have hc : (rmStep rm (.add m)).request_count = rm.request_count + 1 :=
        rmStep_request_count rm (.add m)
      rw [hc]
      have hca : countAdds (RMOp.add m :: ops) = countAdds ops + 1 := by
        simp [countAdds, Nat.add_comm]
      rw [hca]
      rfl
    | pop id =>
      show addIds (rmStep rm (.pop id)) ops = _
      rw [ih, rmStep_request_count]
      simp [countAdds]
    | cancel m =>
      show addIds (rmStep rm (.cancel m)) ops = _
      rw [ih, rmStep_request_count]
      simp [countAdds]

/-- Keys of the map after a Python dict store: unchanged on overwrite,
extended by the key on insert. -/
theorem rmKeys_mapStore (m : List (Nat × String)) (k : Nat) (v : String) :
    (mapStore m k v).map (fun p => p.1) =
      if m.any (fun p => p.1 = k) then m.map (fun p => p.1)
      else m.map (fun p => p.1) ++ [k] := by
  rw [mapStore]
  split
  · rw [List.map_map]
    apply List.map_congr_left
    intro p _
    simp only [Function.comp_apply]
    split
    · rename_i h; exact h.symm
    · rfl
  · simp

theorem rmKeys_filter_subset (rm : RequestManager) (f : Nat × String → Bool) (id : Nat)
    (h : id ∈ (rm.methods_map.filter f).map (fun p => p.1)) :
    id ∈ rmKeys rm := by
  rw [List.mem_map] at h
  obtain ⟨p, hp, hid⟩ := h
  exact List.mem_map.mpr ⟨p, List.mem_of_mem_filter hp, hid⟩

/-- A step never re-introduces an id at or below the counter that is not
currently pending. -/
theorem notin_keys_step (rm : RequestManager) (op : RMOp) (id : Nat)
    (hcount : id ≤ rm.request_count) (hnot : id ∉ rmKeys rm) :
    id ∉ rmKeys (rmStep rm op) ∧ id ≤ (rmStep rm op).request_count := by
  refine ⟨?_, ?_⟩
  · cases op with
    | add m =>
      show id ∉ (mapStore rm.methods_map (rm.request_count + 1) m).map (fun p => p.1)
      rw [rmKeys_mapStore]
      split
      · exact hnot
      · simp only [List.mem_append, List.mem_singleton]
        rintro (h | h)
        · exact hnot h
        · omega
    | pop pid =>
      simp only [rmStep, rmPop]
      split
      · exact hnot
      · split
        · exact fun h => hnot (rmKeys_filter_subset rm _ id h)
        · exact hnot
    | cancel m =>
      simp only [rmStep, rmCancel]
      split
      · exact hnot
      · exact fun h => hnot (rmKeys_filter_subset rm _ id h)
  · rw [rmStep_request_count]
    omega

/-- Pending ids stay bounded by the counter across a step. -/
theorem keysWF_step (rm : RequestManager) (op : RMOp)
    (h : ∀ k ∈ rmKeys rm, k ≤ rm.request_count) :
    ∀ k ∈ rmKeys (rmStep rm op), k ≤ (rmStep rm op).request_count := by
  intro k hk
  rw [rmStep_request_count]
  cases op with
  | add m =>
    have hk' : k ∈ (mapStore rm.methods_map (rm.request_count + 1) m).map (fun p => p.1) := hk
    rw [rmKeys_mapStore] at hk'
    revert hk'
    split
    · intro hk'
      have := h k hk'
      omega
    · simp only [List.mem_append, List.mem_singleton]
      rintro (hk' | hk')
      · have := h k hk'
        omega
      · omega
  | pop pid =>
    revert hk
    simp only [rmStep, rmPop]
    split
    · intro hk; have := h k hk; omega
    · split
      · intro hk
        have := h k (rmKeys_filter_subset rm _ k hk)
        omega
      · intro hk; have := h k hk; omega
  | cancel m =>
    revert hk
    simp only [rmStep, rmCancel]
    split
    · intro hk; have := h k hk; omega
    · intro hk
      have := h k (rmKeys_filter_subset rm _ k hk)
      omega

theorem leaves_zero (ops : List RMOp) (rm : RequestManager) (id : Nat)
    (hcount : id ≤ rm.request_count) (hnot : id ∉ rmKeys rm) :
    leaves id rm ops = 0 := by
  induction ops generalizing rm with
  | nil => rfl
  | cons op ops ih =>
    obtain ⟨hnot', hcount'⟩ := notin_keys_step rm op id hcount hnot
    show (if id ∈ rmKeys rm ∧ id ∉ rmKeys (rmStep rm op) then 1 else 0) +
      leaves id (rmStep rm op) ops = 0
    rw [if_neg (fun hc => hnot hc.1), ih _ hcount' hnot']

theorem leaves_le_one (ops : List RMOp) (rm : RequestManager) (id : Nat)
    (hwf : ∀ k ∈ rmKeys rm, k ≤ rm.request_count) :
    leaves id rm ops ≤ 1 := by
  induction ops generalizing rm with
  | nil => simp [leaves]
  | cons op ops ih =>
    show (if id ∈ rmKeys rm ∧ id ∉ rmKeys (rmStep rm op) then 1 else 0) +
      leaves id (rmStep rm op) ops ≤ 1
    by_cases hrem : id ∈ rmKeys rm ∧ id ∉ rmKeys (rmStep rm op)
    · rw [if_pos hrem]
      have hc : id ≤ (rmStep rm op).request_count := by
        have h1 : id ≤ rm.request_count := hwf id hrem.1
        rw [rmStep_request_count]
        omega
      rw [leaves_zero ops _ id hc hrem.2]
    · rw [if_neg hrem]
      simpa using ih _ (keysWF_step rm op hwf)

/-- Claim C6: the request-id counter starts at 1 and is strictly increasing —
over any lifetime trace of operations from a fresh manager, the ids returned
by `add` are exactly `1, 2, 3, …` (each one greater than the previous, none
ever reused) — and every id leaves the pending map at most once; the only
operations that can remove a pending id are `pop` (a matching response) and
`cancel` (which moves the id into the cancelled set), since `add` never
removes a pending id. -/
theorem C6_request_id_lifecycle (ops : List RMOp) :
    addIds freshRM ops = List.range' 1 (countAdds ops) ∧
    (∀ id, leaves id freshRM ops ≤ 1) ∧
    (∀ rm m id, id ∈ rmKeys rm → id ∈ rmKeys (rmStep rm (.add m))) := by
  refine ⟨addIds_eq_range' ops freshRM, ?_, ?_⟩
  · intro id
    apply leaves_le_one
    intro k hk
    simp [freshRM, rmKeys] at hk
  · intro rm m id h
    show id ∈ (mapStore rm.methods_map (rm.request_count + 1) m).map (fun p => p.1)
    rw [rmKeys_mapStore]
    split
    · exact h
    · exact List.mem_append.mpr (Or.inl h)

/-- Witness for C6 at a concrete trace and manager. -/
theorem C6_request_id_lifecycle_witness :
    addIds freshRM [RMOp.add "textDocument/hover", RMOp.pop 1] = [1] ∧
    leaves 1 freshRM [RMOp.add "textDocument/hover", RMOp.pop 1] ≤ 1 ∧
    1 ∈ rmKeys (rmStep ⟨[(1, "textDocument/hover")], [], 1⟩ (.add "x")) := by
  obtain ⟨h1, h2, h3⟩ := C6_request_id_lifecycle [RMOp.add "textDocument/hover", RMOp.pop 1]
  exact ⟨h1, h2 1, h3 ⟨[(1, "textDocument/hover")], [], 1⟩ "x" 1 (by decide)⟩

/-! ## Document registry and didOpen/didClose notification policy

Embeds the registry of `Workspace` (src/internal/workspace.py lines 204-264:
documents keyed by editor view, `get_documents` filtering on the stored
document's file name) and the document-synchronization notification policy of
`textdocument_didopen` / `textdocument_didclose`
(src/internal/pyserver_handler.py lines 174-237; the same logic appears in
src/internal/pyserver.py lines 280-343).  The `wait_initialized` /
`must_initialized` guards are satisfied (session initialized), and the
diagnostic-manager side effects are a separate component not modelled here. -/

/-- An editor view: its identity, the file it currently shows, and
`is_valid()`. -/
structure EditorView where
  id : Nat
  fileName : String
  valid : Bool
  deriving Repr, DecidableEq

/-- A `BufferedDocument`: captures the view and the view's file name at
construction time. -/
structure Doc where
  viewId : Nat
  fileName : String
  deriving Repr, DecidableEq

/-- The `Workspace.documents` dict, keyed by view identity in insertion
order. -/
abbrev Registry : Type := List (Nat × Doc)

/-- Python dict assignment `documents[view] = document`. -/
def docStore (reg : Registry) (k : Nat) (d : Doc) : Registry :=
  if reg.any (fun p => p.1 = k) then reg.map (fun p => if p.1 = k then (k, d) else p)
  else reg ++ [(k, d)]

/-- `Workspace.get_document(view)`. -/
def get_document (reg : Registry) (vid : Nat) : Option Doc :=
  (reg.find? (fun p => p.1 = vid)).map (fun p => p.2)

/-- `Workspace.remove_document(view)` (no-op when absent). -/
def remove_document (reg : Registry) (vid : Nat) : Registry :=
  reg.filter (fun q => decide (q.1 ≠ vid))

/-- `Workspace.get_documents(file_name)`: the registered documents whose
stored file name matches, in registry order. -/
def get_documents (reg : Registry) (fileName : String) : List Doc :=
  (reg.map (fun p => p.2)).filter (fun d => d.fileName = fileName)

/-- A document-synchronization notification sent to the server. -/
inductive SyncNote where
  | didOpen (path : String)
  | didClose (path : String)
  deriving Repr, DecidableEq

/-- `textdocument_didclose(view)`: remove the view's document, and send
`textDocument/didClose` only when no other registered document still has the
view's file path. -/
def textdocument_didclose (reg : Registry) (view : EditorView) :
    Registry × List SyncNote :=
  match reg.find? (fun p => p.1 = view.id) with
  | some p =>
    if (get_documents (remove_document reg view.id) view.fileName).isEmpty then
      (remove_document reg view.id, [SyncNote.didClose p.2.fileName])
    else
      (remove_document reg view.id, [])
  | none => (reg, [])

/-- `BufferedDocument(view)` construction plus `add_document`. -/
def registerDoc (reg : Registry) (view : EditorView) : Registry :=
  docStore reg view.id ⟨view.id, view.fileName⟩

/-- The tail of `textdocument_didopen` after any stale binding was closed:
construct and register the document, then send `textDocument/didOpen` only
when exactly one registered document now has this file path. -/
def finishOpen (st : Registry × List SyncNote) (view : EditorView) :
    Registry × List SyncNote :=
  (registerDoc st.1 view,
    st.2 ++
      (if (get_documents (registerDoc st.1 view) view.fileName).length = 1 then
        [SyncNote.didOpen view.fileName]
      else []))

/-- `textdocument_didopen(view, reload)`: skip invalid views; an unchanged
existing binding without reload is a no-op; a retargeted or reloaded binding
is closed first; then the document is registered and `didOpen` sent only for
the first view of the file. -/
def textdocument_didopen (reg : Registry) (view : EditorView) (reload : Bool) :
    Registry × List SyncNote :=
  if view.valid = false then (reg, [])
  else
    match reg.find? (fun p => p.1 = view.id) with
    | some p =>
      if p.2.fileName = view.fileName ∧ reload = false then (reg, [])
      else finishOpen (textdocument_didclose reg view) view
    | none => finishOpen (reg, []) view

theorem didOpen_not_in_didclose (reg : Registry) (view : EditorView) (f : String) :
    SyncNote.didOpen f ∉ (textdocument_didclose reg view).2 := by
  rw [textdocument_didclose]
  split
  · split <;> simp
  · simp

theorem didOpen_in_finishOpen (st : Registry × List SyncNote) (view : EditorView)
    (f : String) (hst : SyncNote.didOpen f ∉ st.2)
    (h : SyncNote.didOpen f ∈ (finishOpen st view).2) :
    f = view.fileName ∧
      (get_documents ((finishOpen st view).1) view.fileName).length = 1 := by
  rw [finishOpen] at h ⊢
  simp only [List.mem_append] at h
  rcases h with h | h
  · exact absurd h hst
  · revert h
    split
    · rename_i hguard
      intro h
      simp only [List.mem_singleton, SyncNote.didOpen.injEq] at h
      exact ⟨h, hguard⟩
    · intro h
      simp at h

/-- Claim C4: `textdocument_didopen` sends `textDocument/didOpen` only when,
after registering the new document, exactly one registered document has the
view's file path; `textdocument_didclose` sends `textDocument/didClose` only
when, after removing the closing view's document, no other registered
document shares that file path; concretely, with two views of `a.py` open,
closing one sends nothing and closing the last sends the `didClose`. -/
theorem C4_didopen_didclose_policy (reg : Registry) (view : EditorView) (reload : Bool) :
    (∀ f, SyncNote.didOpen f ∈ (textdocument_didopen reg view reload).2 →
      f = view.fileName ∧
        (get_documents (textdocument_didopen reg view reload).1 view.fileName).length = 1) ∧
    (∀ f, SyncNote.didClose f ∈ (textdocument_didclose reg view).2 →
      get_documents (textdocument_didclose reg view).1 view.fileName = []) ∧
    (textdocument_didclose [(1, ⟨1, "a.py"⟩), (2, ⟨2, "a.py"⟩)] ⟨1, "a.py", true⟩ =
      ([(2, ⟨2, "a.py"⟩)], [])) ∧
    (textdocument_didclose [(2, ⟨2, "a.py"⟩)] ⟨2, "a.py", true⟩ =
      ([], [SyncNote.didClose "a.py"])) := by
  refine ⟨?_, ?_, by decide, by decide⟩
  · intro f hf
    rw [textdocument_didopen] at hf ⊢
    revert hf
    split
    · intro hf; simp at hf
    · split
      · split
        · intro hf; simp at hf
        · exact fun hf => didOpen_in_finishOpen _ view f
            (didOpen_not_in_didclose reg view f) hf
      · exact fun hf => didOpen_in_finishOpen _ view f (by simp) hf
  · intro f hf
    rw [textdocument_didclose] at hf ⊢
    revert hf
    split
    · rename_i p hp
      split
      · rename_i hempty
        intro _
        exact List.isEmpty_iff.mp hempty
      · intro hf; simp at hf
    · intro hf; simp at hf

/-- Witness for C4: opening a fresh file emits `didOpen` and the registry
then holds exactly one document for it. -/
theorem C4_didopen_didclose_policy_witness :
    "a.py" = (⟨1, "a.py", true⟩ : EditorView).fileName ∧
      (get_documents
        (textdocument_didopen ([] : Registry) ⟨1, "a.py", true⟩ false).1 "a.py").length = 1 :=
  (C4_didopen_didclose_policy ([] : Registry) ⟨1, "a.py", true⟩ false).1 "a.py" (by decide)

/-! ## UnbufferedDocument text splice (src/internal/document.py)

`UnbufferedDocument._update_text` converts every change to a flat-offset
splice against the original text, then applies them left to right while
accumulating the cursor shift `len(newText) - len(oldText)`. -/

/-- A `TextChange` (src/internal/document.py lines 34-44): start and end as
(row, column) pairs, the replacement text, and the LSP `rangeLength`
(`endPos` embeds the source's `end` field). -/
structure TextChange where
  start : Nat × Nat
  endPos : Nat × Nat
  text : String
  length : Nat := 0
  deriving Repr, DecidableEq

/-- Python `str.splitlines(keepends=True)` over its newline forms
`\r\n`, `\r`, `\n` (the exotic Unicode line boundaries are not used by the
repository's texts); `acc` holds the current line's characters reversed. -/
def splitKeepAux : List Char → List Char → List (List Char)
  | acc, [] => if acc.isEmpty then [] else [acc.reverse]
  | acc, '\r' :: '\n' :: rest => (acc.reverse ++ ['\r', '\n']) :: splitKeepAux [] rest
  | acc, '\r' :: rest => (acc.reverse ++ ['\r']) :: splitKeepAux [] rest
  | acc, '\n' :: rest => (acc.reverse ++ ['\n']) :: splitKeepAux [] rest
  | acc, c :: rest => splitKeepAux (c :: acc) rest

/-- `UnbufferedDocument.lines()`: the text split with line breaks kept. -/
def docLines (text : List Char) : List (List Char) :=
  splitKeepAux [] text

/-- `UnbufferedDocument.calculate_offset(row, column)`: sum of the lengths of
the preceding lines plus the column. -/
def calculate_offset (lines : List (List Char)) (row col : Nat) : Nat :=
  ((lines.take row).map List.length).sum + col

/-- `_UnbufferedTextChange` (src/internal/document.py lines 47-59): a flat
character span against the original text, the text it covers, and its
replacement. -/
structure UChange where
  spanStart : Nat
  spanEnd : Nat
  old_text : List Char
  new_text : List Char
  deriving Repr, DecidableEq

/-- `_UnbufferedTextChange.offset_move`. -/
def offset_move (c : UChange) : Int :=
  (c.new_text.length : Int) - (c.old_text.length : Int)

/-- Python slice index normalization: negative indices count from the end,
out-of-range indices clamp. -/
def pyIdx (len : Nat) (i : Int) : Nat :=
  if i < 0 then (Int.ofNat len + i).toNat else min i.toNat len

/-- Python `t[:i]`. -/
def pySliceTo (t : List Char) (i : Int) : List Char :=
  t.take (pyIdx t.length i)

/-- Python `t[i:]`. -/
def pySliceFrom (t : List Char) (i : Int) : List Char :=
  t.drop (pyIdx t.length i)

/-- `UnbufferedDocument.to_text_change`: convert (row, column) coordinates to
flat offsets against the original text and capture the covered old text. -/
def to_text_change (text : List Char) (change : TextChange) : UChange :=
  { spanStart := calculate_offset (docLines text) change.start.1 change.start.2,
    spanEnd := calculate_offset (docLines text) change.endPos.1 change.endPos.2,
    old_text :=
      (text.take (calculate_offset (docLines text) change.endPos.1 change.endPos.2)).drop
        (calculate_offset (docLines text) change.start.1 change.start.2),
    new_text := change.text.data }

/-- The splice loop of `_update_text`: apply each converted change at its
span moved by the running cursor shift, then add the change's own shift. -/
def spliceLoop (temp : List Char) (move : Int) : List UChange → List Char
  | [] => temp
  | c :: rest =>
    spliceLoop
      (pySliceTo temp (c.spanStart + move) ++ c.new_text ++
        pySliceFrom temp (c.spanEnd + move))
      (move + offset_move c) rest

/-- `UnbufferedDocument._update_text(source, changes)` (src/internal/document.py
lines 79-89). -/
def update_text (source : String) (changes : List TextChange) : String :=
  ⟨spliceLoop source.data 0 (changes.map (to_text_change source.data))⟩

/-- Claim C3: applying to `"abcdef"` the changes replace-offsets-1..2 with
`"XY"` and replace-offsets-4..5 with `"Z"`, both in the original text's
coordinates, yields `"aXYcdZf"` under the cumulative-shift splice for either
supply order. -/
theorem C3_cumulative_shift_splice :
    update_text "abcdef"
      [⟨(0, 1), (0, 2), "XY", 0⟩, ⟨(0, 4), (0, 5), "Z", 0⟩] = "aXYcdZf" ∧
    update_text "abcdef"
      [⟨(0, 4), (0, 5), "Z", 0⟩, ⟨(0, 1), (0, 2), "XY", 0⟩] = "aXYcdZf" := by
  constructor <;> rfl

/-! ## WorkspaceEdit.apply_changes (claim C2)

Embeds `WorkspaceEdit.apply_changes` (src/internal/pyserver.py lines 791-803,
identically src/internal/pyserver_handler.py lines 691-703 and
`PyserverHandler._apply_edit`, src/pythontools.py lines 886-915) together
with the file-resource helpers of src/internal/workspace.py and the
disk-backed text-edit path (`UnbufferedDocument` fallback, exercised when the
target file has no open editor view).  The filesystem is а finite map from
path to content; `none` models a raised exception, which the
`workspace/applyEdit` handler turns into `{applied: false}`. -/

/-- The filesystem: path to content, insertion ordered. -/
abbrev FS : Type := List (String × String)

/-- `Path(path).read_text()`; `none` when the file does not exist. -/
def fsRead (fs : FS) (path : String) : Option String :=
  (fs.find? (fun p => p.1 = path)).map (fun p => p.2)

/-- `Path(path).write_text(content)` (creating or truncating). -/
def fsWrite (fs : FS) (path content : String) : FS :=
  if fs.any (fun p => p.1 = path) then
    fs.map (fun p => if p.1 = path then (path, content) else p)
  else fs ++ [(path, content)]

/-- `Path(path).unlink()` file removal. -/
def fsRemove (fs : FS) (path : String) : FS :=
  fs.filter (fun q => decide (q.1 ≠ path))

/-- A file-resource operation of a `documentChanges` entry carrying `kind`. -/
inductive ResChange where
  | create (path : String)
  | rename (oldPath newPath : String)
  | delete (path : String)
  deriving Repr, DecidableEq

/-- One entry of `documentChanges`: a file-resource operation (the entry has
a `kind`) or a text-edit operation against a target document. -/
inductive DocChange where
  | resource (r : ResChange)
  | textEdit (path : String) (edits : List TextChange)
  deriving Repr, DecidableEq

/-- `_apply_resource_changes` dispatch: `create_document` (touch + write
empty text), `rename_document`, `delete_document`
(src/internal/workspace.py lines 348-374); renaming or deleting a missing
file raises (`none`). -/
def apply_resource_changes (fs : FS) : ResChange → Option FS
  | .create p => some (fsWrite fs p "")
  | .rename oldP newP =>
    match fsRead fs oldP with
    | some c => some (fsWrite (fsRemove fs oldP) newP c)
    | none => none
  | .delete p =>
    match fsRead fs p with
    | some _ => some (fsRemove fs p)
    | none => none

/-- `_apply_textedit_changes` on the disk-backed fallback document: read the
file, apply the cumulative-shift splice, save; reading a missing file
raises (`none`). -/
def apply_textedit_changes (fs : FS) (path : String) (edits : List TextChange) :
    Option FS :=
  match fsRead fs path with
  | some txt => some (fsWrite fs path (update_text txt edits))
  | none => none

/-- `WorkspaceEdit.apply_changes` wrapped by `handle_workspace_applyedit`:
iterate the `documentChanges` entries; a `kind`-carrying entry is applied and
then the source executes `return`, leaving the remaining entries unprocessed
while the handler still replies `applied: true`; an exception yields
`applied: false` with prior entries left committed. -/
def apply_changes (fs : FS) : List DocChange → FS × Bool
  | [] => (fs, true)
  | .resource r :: _rest =>
    (match apply_resource_changes fs r with
     | some fs2 => (fs2, true)
     | none => (fs, false))
  | .textEdit p es :: rest =>
    (match apply_textedit_changes fs p es with
     | some fs2 => apply_changes fs2 rest
     | none => (fs, false))

/-- Claim C2 (code bug): with `documentChanges = [create "a.py", text edit on
"b.py"]`, the handler performs the create, replies `{applied: true}`, yet
never applies the text edit — `b.py` keeps its original content even though
applying that entry alone would change it.  The `return` in the `kind`
branch of `apply_changes` exits the whole loop instead of continuing to the
next entry. -/
theorem C2_applyedit_stops_after_resource_entry :
    apply_changes [("b.py", "abcdef")]
      [DocChange.resource (.create "a.py"),
       DocChange.textEdit "b.py" [⟨(0, 0), (0, 1), "X", 1⟩]] =
      ([("b.py", "abcdef"), ("a.py", "")], true) ∧
    fsRead ([("b.py", "abcdef"), ("a.py", "")] : FS) "b.py" = some "abcdef" ∧
    apply_textedit_changes [("b.py", "abcdef")] "b.py" [⟨(0, 0), (0, 1), "X", 1⟩] =
      some [("b.py", "Xbcdef")] := by
  refine ⟨rfl, rfl, rfl⟩

/-! ## Diagnostics status-bar summary (claim C7)

Three historical iterations of `DiagnosticManager._show_status` coexist in
the repository:
* src/internal/pyserver_handler.py lines 661-671: erases the status entry
  when the active view has no diagnostics, otherwise sets the summary;
* src/internal/pyserver.py lines 769-773: always sets the summary;
* src/internal/diagnostics.py lines 161-165: always sets the summary. -/

/-- A converted diagnostic item (severity, highlight region endpoints,
display message); only the severity matters to the status summary. -/
structure DiagnosticItem where
  severity : Nat
  region : Nat × Nat
  message : String
  deriving Repr, DecidableEq

/-- The effect of `_show_status` on the view's status entry. -/
inductive StatusAction where
  | setStatus (value : String)
  | eraseStatus
  deriving Repr, DecidableEq

/-- `len([item for item in diagnostics if item.severity == 1])`. -/
def errCount (items : List DiagnosticItem) : Nat :=
  (items.filter (fun i => i.severity = 1)).length

/-- `DiagnosticManager._show_status` of src/internal/pyserver_handler.py:
erase on empty, else `"ERROR %s, WARNING %s" % (err, len - err)`. -/
def show_status_handler (items : List DiagnosticItem) : StatusAction :=
  if items.isEmpty then .eraseStatus
  else .setStatus
    ("ERROR " ++ toString (errCount items) ++ ", WARNING " ++
      toString (items.length - errCount items))

/-- `DiagnosticManager._show_status` of src/internal/pyserver.py: always
sets `"ERROR %s, WARNING %s"`. -/
def show_status_pyserver (items : List DiagnosticItem) : StatusAction :=
  .setStatus
    ("ERROR " ++ toString (errCount items) ++ ", WARNING " ++
      toString (items.length - errCount items))

/-- `DiagnosticManager._show_status` of src/internal/diagnostics.py: always
sets `f"ERROR {err_count}, WARNING {warn_count}"`. -/
def show_status_diagnostics (items : List DiagnosticItem) : StatusAction :=
  .setStatus
    ("ERROR " ++ toString (errCount items) ++ ", WARNING " ++
      toString (items.length - errCount items))

/-- Counterexample to C7 as stated: with zero diagnostics for the active
file, the pyserver.py iteration of `_show_status` displays
`"ERROR 0, WARNING 0"` instead of erasing the status entry (and the
diagnostics.py iteration behaves identically). -/
theorem C7_zero_diagnostics_not_erased :
    show_status_pyserver [] = .setStatus "ERROR 0, WARNING 0" ∧
    show_status_pyserver [] ≠ .eraseStatus ∧
    show_status_diagnostics [] = .setStatus "ERROR 0, WARNING 0" := by
  refine ⟨rfl, by decide, rfl⟩

theorem length_filter_partition (items : List DiagnosticItem) :
    items.length - errCount items =
      (items.filter (fun i => !(decide (i.severity = 1)))).length := by
  have hsum : items.length =
      (items.filter (fun i => decide (i.severity = 1))).length +
        (items.filter (fun i => !(decide (i.severity = 1)))).length := by
    induction items with
    | nil => simp
    | cons a t ih =>
      by_cases h : a.severity = 1 <;> simp [List.filter_cons, h, ih] <;> omega
  rw [errCount]
  omega

/-- Claim C7 as amended: every iteration shows `"ERROR <n>, WARNING <m>"`
where `n` counts the severity-1 items and `m` counts all remaining items; the
pyserver_handler.py iteration erases the status entry when the active file
has zero diagnostics, while the pyserver.py and diagnostics.py iterations
display `"ERROR 0, WARNING 0"` instead of erasing. -/
theorem C7_show_status_amended (items : List DiagnosticItem) :
    (show_status_handler items =
      if items.isEmpty then .eraseStatus
      else .setStatus
        ("ERROR " ++ toString (errCount items) ++ ", WARNING " ++
          toString (items.filter (fun i => !(decide (i.severity = 1)))).length)) ∧
    show_status_pyserver items =
      .setStatus
        ("ERROR " ++ toString (errCount items) ++ ", WARNING " ++
          toString (items.filter (fun i => !(decide (i.severity = 1)))).length) ∧
    show_status_diagnostics items =
      .setStatus
        ("ERROR " ++ toString (errCount items) ++ ", WARNING " ++
          toString (items.filter (fun i => !(decide (i.severity = 1)))).length) := by
  rw [show_status_handler, show_status_pyserver, show_status_diagnostics,
    length_filter_partition]
  exact ⟨rfl, rfl, rfl⟩

/-! ## Environment resolution (src/environment/virtual_environment.py)

`get_environment` (lines 83-98) runs `<activateCommand> && "<python_bin>" -c
"<inline env-dump script>"` through the process runner; the runner
(`run_childprocess`, an external subprocess invocation) and `json.loads` are
modelled as parameters. -/

/-- `EnvironmentManager` (lines 13-22): interpreter path and activation
command (`none` for global installs). -/
structure EnvironmentManager where
  python_bin : String
  activate_command : Option String
  deriving Repr, DecidableEq

/-- Python truthiness test `not m.activate_command`. -/
def isFalsyCmd : Option String → Bool
  | none => true
  | some s => s.isEmpty

/-- The inline environment-dump script passed to `-c`. -/
def get_env_script : String :=
  "import os,json;print(json.dumps(os.environ.copy(),indent=2))"

/-- `ProcessResult` (lines 40-44). -/
structure ProcessResult where
  code : Int
  stdout : String
  stderr : String

/-- `get_environment(m)`: absent activation resolves to `None`; otherwise run
the activation-plus-dump shell sequence, parse its standard output as JSON on
exit code zero, and on non-zero exit log standard error (second component)
and resolve to `None`.  Totality of this function models that a failed
activation never raises to the caller. -/
def get_environment (run : String → ProcessResult)
    (loads : String → List (String × String)) (m : EnvironmentManager) :
    Option (List (String × String)) × List String :=
  match m.activate_command with
  | none => (none, [])
  | some act =>
    if act.isEmpty then (none, [])
    else if (run (act ++ " && \"" ++ m.python_bin ++ "\" -c \"" ++
        get_env_script ++ "\"")).code = 0 then
      (some (loads (run (act ++ " && \"" ++ m.python_bin ++ "\" -c \"" ++
        get_env_script ++ "\"")).stdout), [])
    else
      (none, [(run (act ++ " && \"" ++ m.python_bin ++ "\" -c \"" ++
        get_env_script ++ "\"")).stderr])

/-- Claim C8: `get_environment` returns absent for every candidate without an
activation command; otherwise it runs the shell sequence
`<activateCommand> && "<interpreter>" -c "<inline env-dump script>"` and
returns the parsed JSON environment exactly when the process exits with code
zero, returning absent (after logging stderr) for every non-zero exit; a
failed activation never raises to the caller. -/
theorem C8_get_environment_resolution (run : String → ProcessResult)
    (loads : String → List (String × String)) (m : EnvironmentManager) :
    (isFalsyCmd m.activate_command = true →
      get_environment run loads m = (none, [])) ∧
    (∀ act, m.activate_command = some act → ¬act = "" →
      ((run (act ++ " && \"" ++ m.python_bin ++ "\" -c \"" ++ get_env_script ++ "\"")).code = 0 →
        get_environment run loads m =
          (some (loads (run (act ++ " && \"" ++ m.python_bin ++ "\" -c \"" ++
            get_env_script ++ "\"")).stdout), [])) ∧
      (¬(run (act ++ " && \"" ++ m.python_bin ++ "\" -c \"" ++ get_env_script ++ "\"")).code = 0 →
        get_environment run loads m =
          (none, [(run (act ++ " && \"" ++ m.python_bin ++ "\" -c \"" ++
            get_env_script ++ "\"")).stderr]))) := by
  constructor
  · intro hfalsy
    cases hact : m.activate_command with
    | none => simp [get_environment, hact]
    | some act =>
      have hemp : act.isEmpty = true := by
        rw [hact] at hfalsy
        simpa [isFalsyCmd] using hfalsy
      simp [get_environment, hact, hemp]
  · intro act hact hne
    have hemp : act.isEmpty = false := by
      cases hs : act.isEmpty
      · rfl
      · exact absurd ((String.isEmpty_iff act).mp hs) hne
    have hne' : ¬(act.isEmpty = true) := by
      rw [hemp]
      exact Bool.false_ne_true
    constructor
    · intro hzero
      simp only [get_environment, hact]
      rw [if_neg hne']
      exact if_pos hzero
    · intro hnz
      simp only [get_environment, hact]
      rw [if_neg hne']
      exact if_neg hnz

/-- Witness for C8: a venv candidate whose activation succeeds with exit
code zero resolves to the parsed environment. -/
theorem C8_get_environment_resolution_witness :
    get_environment (fun _ => ⟨0, "x", ""⟩) (fun s => [("PATH", s)])
      ⟨"/usr/bin/python", some "source venv/bin/activate"⟩ =
      (some [("PATH", "x")], []) := by
  have h := (C8_get_environment_resolution (fun _ => ⟨0, "x", ""⟩)
    (fun s => [("PATH", s)]) ⟨"/usr/bin/python", some "source venv/bin/activate"⟩).2
    "source venv/bin/activate" rfl (by decide)
  exact h.1 rfl

/-! ## Conda environment scanning (claim C9)

Embeds `scan_conda` and `scan_conda_envs`
(src/environment/virtual_environment.py lines 131-150) over an abstract
filesystem, in the POSIX path layout (`PYTHON = "bin/python"`, paths joined
with `/`). -/

/-- The platform interpreter sub-path (POSIX layout). -/
def PYTHON : String := "bin/python"

/-- The filesystem as the scanner observes it: the home directory, the base
names of its entries (`home.glob("*conda*")` filters these by substring),
directory/file tests, and the base names under a folder's `envs`
subdirectory (`basepath.glob("envs/*")`). -/
structure CondaFS where
  home : String
  homeEntries : List String
  isDir : String → Bool
  isFile : String → Bool
  envsEntries : String → List String

/-- A discovered Conda candidate. -/
structure Conda where
  python_bin : String
  activate_command : String
  deriving Repr, DecidableEq

/-- Shell quoting used by the activate commands: `f'"{path}"'`. -/
def quoteS (s : String) : String := "\"" ++ s ++ "\""

/-- The folders `[path for path in home.glob("*conda*") if path.is_dir()]`. -/
def condaFolders (fs : CondaFS) : List String :=
  ((fs.homeEntries.filter (fun name => decide ("conda".data <:+: name.data))).map
    (fun name => fs.home ++ "/" ++ name)).filter fs.isDir

/-- `scan_conda_envs(condabin, basepath)`: yield a Conda candidate for every
`envs/*` subdirectory holding the platform python, with the activate command
referencing the given condabin. -/
def scan_conda_envs (fs : CondaFS) (condabin basepath : String) : List Conda :=
  (((fs.envsEntries basepath).map (fun name => basepath ++ "/envs/" ++ name)).filter
    fs.isDir).filterMap (fun envsFolder =>
      if fs.isFile (envsFolder ++ "/" ++ PYTHON) then
        some ⟨envsFolder ++ "/" ++ PYTHON,
          quoteS condabin ++ " activate " ++ quoteS envsFolder⟩
      else none)

/-- `scan_conda()`: for every `*conda*` home folder holding the platform
python, yield the outer candidate and then its sub-environments, the condabin
always derived from the outer folder. -/
def scan_conda (fs : CondaFS) : List Conda :=
  (condaFolders fs).flatMap (fun folder =>
    if fs.isFile (folder ++ "/" ++ PYTHON) then
      ⟨folder ++ "/" ++ PYTHON,
        quoteS (folder ++ "/condabin/conda") ++ " activate " ++ quoteS folder⟩ ::
        scan_conda_envs fs (folder ++ "/condabin/conda") folder
    else [])

/-- Claim C9: every candidate yielded by `scan_conda` is either an outer
candidate or a sub-environment candidate at `<root>/envs/<name>`, and in both
cases the activate command references the conda launcher at
`<root>/condabin/conda` — the condabin of the outer conda installation
folder, which is a different path from a condabin under the sub-environment
folder itself. -/
theorem C9_condabin_from_outer_root (fs : CondaFS) (c : Conda)
    (hc : c ∈ scan_conda fs) :
    ∃ root ∈ condaFolders fs,
      (c = ⟨root ++ "/" ++ PYTHON,
        quoteS (root ++ "/condabin/conda") ++ " activate " ++ quoteS root⟩) ∨
      (∃ name ∈ fs.envsEntries root,
        c = ⟨(root ++ "/envs/" ++ name) ++ "/" ++ PYTHON,
          quoteS (root ++ "/condabin/conda") ++ " activate " ++
            quoteS (root ++ "/envs/" ++ name)⟩ ∧
        root ++ "/condabin/conda" ≠ (root ++ "/envs/" ++ name) ++ "/condabin/conda") := by
  rw [scan_conda, List.mem_flatMap] at hc
  obtain ⟨root, hroot, hmem⟩ := hc
  refine ⟨root, hroot, ?_⟩
  revert hmem
  split
  · intro hmem
    rcases List.mem_cons.mp hmem with hmem | hmem
    · exact Or.inl hmem
    · right
      rw [scan_conda_envs, List.mem_filterMap] at hmem
      obtain ⟨envsFolder, henv, hif⟩ := hmem
      rw [List.mem_filter, List.mem_map] at henv
      obtain ⟨⟨name, hname, hfold⟩, _⟩ := henv
      subst hfold
      refine ⟨name, hname, ?_, ?_⟩
      · revert hif
        split
        · intro hif
          injection hif with hif
          exact hif.symm
        · intro hif
          cases hif
      · intro heq
        have := congrArg String.length heq
        simp only [String.length_append] at this
        have hname6 : ("/envs/" : String).length = 6 := by decide
        omega
  · intro hmem
    cases hmem

/-- Witness for C9: one conda root with one sub-environment. -/
theorem C9_condabin_from_outer_root_witness :
    ∃ root ∈ condaFolders
      ⟨"/home/u", ["miniconda3"], fun _ => true, fun _ => true, fun _ => ["foo"]⟩,
      ((⟨"/home/u/miniconda3/envs/foo/bin/python",
        "\"/home/u/miniconda3/condabin/conda\" activate \"/home/u/miniconda3/envs/foo\""⟩ : Conda) =
        ⟨root ++ "/" ++ PYTHON,
          quoteS (root ++ "/condabin/conda") ++ " activate " ++ quoteS root⟩) ∨
      (∃ name ∈ (fun (_ : String) => ["foo"]) root,
        (⟨"/home/u/miniconda3/envs/foo/bin/python",
          "\"/home/u/miniconda3/condabin/conda\" activate \"/home/u/miniconda3/envs/foo\""⟩ : Conda) =
          ⟨(root ++ "/envs/" ++ name) ++ "/" ++ PYTHON,
            quoteS (root ++ "/condabin/conda") ++ " activate " ++
              quoteS (root ++ "/envs/" ++ name)⟩ ∧
        root ++ "/condabin/conda" ≠ (root ++ "/envs/" ++ name) ++ "/condabin/conda") :=
  C9_condabin_from_outer_root
    ⟨"/home/u", ["miniconda3"], fun _ => true, fun _ => true, fun _ => ["foo"]⟩
    ⟨"/home/u/miniconda3/envs/foo/bin/python",
      "\"/home/u/miniconda3/condabin/conda\" activate \"/home/u/miniconda3/envs/foo\""⟩
    (by decide)

/-! ## Initialize lifecycle (claim C10)

Embeds `InitializeManager` (src/internal/pyserver.py lines 92-148) and the
`initialize` / `handle_initialize` pair of `PyserverClient` (lines 237-272;
the same logic with a bare `_initializing` flag appears in
src/internal/pyserver_handler.py lines 128-166). -/

/-- `InitializeManager` state: the initializing and initialized flags and the
threading event used by `wait_initialized`. -/
structure IMState where
  is_initializing : Bool
  is_initialized : Bool
  eventSet : Bool
  deriving Repr, DecidableEq

/-- `InitializeManager.reset()`. -/
def im_reset : IMState := ⟨false, false, false⟩

/-- `InitializeManager.initialize()`: set the event, clear initializing, mark
initialized. -/
def im_set_initialized (_ : IMState) : IMState := ⟨false, true, true⟩

/-- A message the initialize flow sends. -/
inductive InitMsg where
  | initializeRequest (rootPath : String)
  | initializedNote
  deriving Repr, DecidableEq

/-- `PyserverClient.initialize(view)`: a no-op while initializing, when the
view is closed, or when no workspace path resolves; otherwise mark
initializing and send the `initialize` request. -/
def client_initialize_req (s : IMState) (viewOpen : Bool) (workspacePath : String) :
    IMState × List InitMsg :=
  if s.is_initializing then (s, [])
  else if viewOpen = false then (s, [])
  else if workspacePath = "" then (s, [])
  else ({ s with is_initializing := true }, [InitMsg.initializeRequest workspacePath])

/-- `PyserverClient.handle_initialize(params)`: an error response is printed
and the handler returns — without touching the manager; a success response
sends `initialized` and marks the manager initialized. -/
def handle_initialize_resp (s : IMState) (hasError : Bool) : IMState × List InitMsg :=
  if hasError then (s, [])
  else (im_set_initialized s, [InitMsg.initializedNote])

/-- `PyserverClient.reset_state()`, as far as the manager is concerned:
`initialize_manager.reset()`. -/
def client_reset_state (_ : IMState) : IMState := im_reset

/-- Repeated `initialize` attempts, collecting the requests they send. -/
def initialize_iter (s : IMState) : List (Bool × String) → IMState × List InitMsg
  | [] => (s, [])
  | (v, wp) :: rest =>
    ((initialize_iter (client_initialize_req s v wp).1 rest).1,
      (client_initialize_req s v wp).2 ++ (initialize_iter (client_initialize_req s v wp).1 rest).2)

/-- Claim C10: an error response to `initialize` leaves the client in the
Initializing state — the handler returns without clearing the flag and sends
nothing — so every subsequent `initialize` call returns immediately without
sending another request, until `reset_state` clears the flag, after which a
valid view with a workspace root sends a fresh `initialize` request. -/
theorem C10_initialize_error_latch (s : IMState) (hinit : s.is_initializing = true) :
    handle_initialize_resp s true = (s, []) ∧
    (∀ inputs, initialize_iter s inputs = (s, [])) ∧
    (client_reset_state s).is_initializing = false ∧
    (∀ wp, ¬wp = "" →
      client_initialize_req (client_reset_state s) true wp =
        (⟨true, false, false⟩, [InitMsg.initializeRequest wp])) := by
  refine ⟨rfl, ?_, rfl, ?_⟩
  · intro inputs
    induction inputs with
    | nil => rfl
    | cons p rest ih =>
      obtain ⟨v, wp⟩ := p
      have hstep : client_initialize_req s v wp = (s, []) := by
        rw [client_initialize_req, if_pos hinit]
      show ((initialize_iter (client_initialize_req s v wp).1 rest).1,
        (client_initialize_req s v wp).2 ++ (initialize_iter (client_initialize_req s v wp).1 rest).2) =
          (s, [])
      rw [hstep]
      simp [ih]
  · intro wp hwp
    rw [client_initialize_req]
    rw [if_neg (by simp [client_reset_state, im_reset])]
    rw [if_neg (by simp)]
    rw [if_neg hwp]
    rfl

/-- Witness for C10: a client stuck Initializing after an errored initialize
response ignores two further initialize attempts. -/
theorem C10_initialize_error_latch_witness :
    handle_initialize_resp ⟨true, false, false⟩ true = (⟨true, false, false⟩, []) ∧
    initialize_iter ⟨true, false, false⟩ [(true, "/proj"), (true, "/proj")] =
      (⟨true, false, false⟩, []) ∧
    (client_reset_state ⟨true, false, false⟩).is_initializing = false ∧
    client_initialize_req (client_reset_state ⟨true, false, false⟩) true "/proj" =
      (⟨true, false, false⟩, [InitMsg.initializeRequest "/proj"]) := by
  obtain ⟨h1, h2, h3, h4⟩ := C10_initialize_error_latch ⟨true, false, false⟩ rfl
  exact ⟨h1, h2 [(true, "/proj"), (true, "/proj")], h3, h4 "/proj" (by decide)⟩

end PythonTools
